import Mathlib

/-!
Verification of the Availability & Intersection Engine of the
agentic-interview-scheduler repository (`agentic-engine-server`).

The Python sources embedded here are:
  * `ai_engine/slot_manager.py` — the `SlotManager` class: availability
    storage, range query, candidate/recruiter timestamp parsing, slot
    intersection, best-match selection and booking mutation;
  * `ai_engine/scheduler_agent.py` — the availability-refresh step and the
    slot-intersection tool that drives the session stage;
  * `server.py` — the `/ingestEmail` handler sequencing parse → evaluate.

Timestamps are modelled after CPython 3.10 `datetime`: an `Instant` is the
number of microseconds since the Unix epoch (an `Int`), computed from the
parsed civil fields and the UTC offset.  Aware-datetime comparison in Python
compares exactly these values.  Parsing (`datetime.fromisoformat`,
`datetime.strptime` for the handful of formats used by the source) is
reproduced at the character level; corner cases of CPython that no input of
this system can reach (embedded whitespace accepted by `int()`, leap-second
fields, fractional-second UTC offsets) are noted at each definition.
-/

/-- Civil date/time fields plus an optional UTC offset in microseconds, the
shape a Python `datetime` value takes after parsing.
`offsetMicroseconds? = none` models a naive datetime (`tzinfo is None`). -/
structure PyDateTime where
  year : Nat
  month : Nat
  day : Nat
  hour : Nat
  minute : Nat
  second : Nat
  microsecond : Nat
  offsetMicroseconds? : Option Int
deriving DecidableEq, Repr

/-- Gregorian leap-year test, as `calendar.isleap` / `datetime` use it. -/
def isLeapYear (y : Nat) : Bool :=
  y % 4 = 0 && (y % 100 ≠ 0 || y % 400 = 0)

/-- Number of days in a month, as `datetime.date` validates it. -/
def daysInMonth (y m : Nat) : Nat :=
  if m = 2 then (if isLeapYear y then 29 else 28)
  else if m = 4 || m = 6 || m = 9 || m = 11 then 30
  else 31

/-- Days from the civil epoch 1970-01-01 to year/month/day (proleptic
Gregorian), the standard era-based formula; all intermediate quantities are
natural numbers for `1 ≤ y`. -/
def daysFromCivil (y m d : Nat) : Int :=
  let yAdj : Nat := if m ≤ 2 then y - 1 else y
  let era : Nat := yAdj / 400
  let yoe : Nat := yAdj % 400
  let mp : Nat := (m + 9) % 12
  let doy : Nat := (153 * mp + 2) / 5 + (d - 1)
  let doe : Nat := yoe * 365 + yoe / 4 - yoe / 100 + doy
  (((era * 146097 + doe : Nat) : Int)) - 719468

/-- The instant a `PyDateTime` denotes, in microseconds since the Unix
epoch.  A missing offset is resolved to UTC first (`pytz.UTC.localize`),
exactly as both parsing paths of `find_intersection` do before any
comparison; Python compares aware datetimes by this value. -/
def instantOfDT (dt : PyDateTime) : Int :=
  (daysFromCivil dt.year dt.month dt.day * 86400
      + (dt.hour : Int) * 3600 + (dt.minute : Int) * 60 + (dt.second : Int))
      * 1000000
    + (dt.microsecond : Int)
    - dt.offsetMicroseconds?.getD 0

/-- Value of a decimal digit character, `none` for anything else. -/
def digitVal? (c : Char) : Option Nat :=
  if c.isDigit then some (c.toNat - 48) else none

/-- Read one decimal digit off the front of the character list. -/
def readDigit : List Char → Option (Nat × List Char)
  | [] => none
  | c :: rest => (digitVal? c).map (fun v => (v, rest))

/-- Read exactly two decimal digits (Python `int(s[i:i+2])` on digit input). -/
def read2 (cs : List Char) : Option (Nat × List Char) := do
  let (a, cs) ← readDigit cs
  let (b, cs) ← readDigit cs
  pure (10 * a + b, cs)

/-- Read exactly four decimal digits. -/
def read4 (cs : List Char) : Option (Nat × List Char) := do
  let (a, cs) ← read2 cs
  let (b, cs) ← read2 cs
  pure (100 * a + b, cs)

/-- Consume one expected character. -/
def expectChar (ch : Char) : List Char → Option (List Char)
  | [] => none
  | c :: rest => if c = ch then some rest else none

/-- Whether every character of the list is a decimal digit. -/
def allDigits (cs : List Char) : Bool :=
  cs.all Char.isDigit

/-- Numeric value of a digit list (most significant first). -/
def digitsVal (cs : List Char) : Nat :=
  cs.foldl (fun acc c => acc * 10 + (c.toNat - 48)) 0

/-- CPython `_parse_hh_mm_ss_ff`: two-digit hour, then optional `:MM`,
then optional `:SS`, then an optional fraction of exactly 3 or 6 digits
after a dot, consuming the whole string.  Returns
(hour, minute, second, microsecond); no range validation is done here,
exactly as in CPython (ranges are checked by the `datetime` constructor,
modelled at the call site). -/
def parseHMSF (cs : List Char) : Option (Nat × Nat × Nat × Nat) := do
  let (h, r0) ← read2 cs
  match r0 with
  | [] => pure (h, 0, 0, 0)
  | c1 :: r1 =>
    if c1 = ':' then do
      let (m, r2) ← read2 r1
      match r2 with
      | [] => pure (h, m, 0, 0)
      | c3 :: r3 =>
        if c3 = ':' then do
          let (s, r4) ← read2 r3
          match r4 with
          | [] => pure (h, m, s, 0)
          | c5 :: r5 =>
            if c5 = '.' then
              if r5.length = 3 && allDigits r5 then pure (h, m, s, digitsVal r5 * 1000)
              else if r5.length = 6 && allDigits r5 then pure (h, m, s, digitsVal r5)
              else none
            else none
        else none
    else none

/-- Index of the first occurrence of a character, if any. -/
def firstIdxOf (ch : Char) : List Char → Option Nat
  | [] => none
  | c :: rest =>
    if c = ch then some 0
    else (firstIdxOf ch rest).map (fun i => i + 1)

/-- CPython `_parse_isoformat_time` offset split: the time string is cut at
the first `-`, or failing that the first `+`; the character at the cut is
the offset sign.  Returns the wall-clock part and, when a sign was found,
the sign with the offset part. -/
def splitTZ (cs : List Char) : List Char × Option (Char × List Char) :=
  match firstIdxOf '-' cs with
  | some i => (cs.take i, some ('-', cs.drop (i + 1)))
  | none =>
    match firstIdxOf '+' cs with
    | some i => (cs.take i, some ('+', cs.drop (i + 1)))
    | none => (cs, none)

/-- Model of CPython 3.10 `datetime.fromisoformat` (the strict pre-3.11
grammar the source code is written against): `YYYY-MM-DD`, optionally
followed by one arbitrary separator character and a time
`HH[:MM[:SS[.fff[fff]]]]`, optionally followed by an offset
`+HH:MM[:SS[.ffffff]]` or `-HH:MM[:SS[.ffffff]]` (string length 5, 8 or 15
after the sign).  Field ranges are validated as the `datetime`/`timezone`
constructors do: month, day under the Gregorian calendar, hour ≤ 23,
minute/second ≤ 59, the offset strictly under 24 hours in magnitude (the
offset components themselves are unconstrained two-digit numbers, as in
CPython).  Not modelled: `int()` accepting whitespace or a sign inside a
two-digit field, and the day being allowed a single digit when the string
ends there — no input this system builds can reach those corners. -/
def pyFromIso (cs : List Char) : Option PyDateTime := do
  let (y, r) ← read4 cs
  let r ← expectChar '-' r
  let (mo, r) ← read2 r
  let r ← expectChar '-' r
  let (d, r) ← read2 r
  if 1 ≤ y ∧ 1 ≤ mo ∧ mo ≤ 12 ∧ 1 ≤ d ∧ d ≤ daysInMonth y mo then
    match r with
    | [] => pure ⟨y, mo, d, 0, 0, 0, 0, none⟩
    | _sep :: tcs => do
      let (timecs, tz?) := splitTZ tcs
      let (h, mi, s, us) ← parseHMSF timecs
      if h ≤ 23 ∧ mi ≤ 59 ∧ s ≤ 59 then
        match tz? with
        | none => pure ⟨y, mo, d, h, mi, s, us, none⟩
        | some (sign, tzcs) =>
          if tzcs.length = 5 ∨ tzcs.length = 8 ∨ tzcs.length = 15 then do
            let (th, tm, ts, tus) ← parseHMSF tzcs
            let total : Int := (((th * 3600 + tm * 60 + ts) * 1000000 + tus : Nat) : Int)
            let off : Int := if sign = '-' then -total else total
            if -86400000000 < off ∧ off < 86400000000 then
              pure ⟨y, mo, d, h, mi, s, us, some off⟩
            else none
          else none
      else none
  else none

/-- CPython `_strptime` numeric field: the regex alternation tries the
two-digit forms first and a bare digit last.  `ok2` is the set of values the
two-digit alternatives cover, `ok1` the single-digit ones.  For the fixed
separator-delimited formats this file uses, committing to two digits when
they are digits and in range is equivalent to the regex with backtracking,
because a digit can never match the following literal separator. -/
def readNum2or1 (ok2 ok1 : Nat → Bool) : List Char → Option (Nat × List Char)
  | [] => none
  | [c1] =>
    match digitVal? c1 with
    | some a => if ok1 a then some (a, []) else none
    | none => none
  | c1 :: c2 :: rest =>
    match digitVal? c1, digitVal? c2 with
    | some a, some b =>
      if ok2 (10 * a + b) then some (10 * a + b, rest)
      else if ok1 a then some (a, c2 :: rest)
      else none
    | some a, none => if ok1 a then some (a, c2 :: rest) else none
    | none, _ => none

/-- Month field `%m`: regex `1[0-2]|0[1-9]|[1-9]`. -/
def readMonth : List Char → Option (Nat × List Char) :=
  readNum2or1 (fun v => 1 ≤ v && v ≤ 12) (fun v => 1 ≤ v && v ≤ 9)

/-- Day field `%d`: regex `3[01]|[12]\d|0[1-9]|[1-9]`. -/
def readDay : List Char → Option (Nat × List Char) :=
  readNum2or1 (fun v => 1 ≤ v && v ≤ 31) (fun v => 1 ≤ v && v ≤ 9)

/-- Hour field `%H`: regex `2[0-3]|[0-1]\d|\d`. -/
def readHour : List Char → Option (Nat × List Char) :=
  readNum2or1 (fun v => v ≤ 23) (fun _ => true)

/-- Minute/second fields `%M`/`%S`: regex `[0-5]\d|\d`.  CPython also lets
`%S` match the leap-second values 60 and 61, which the `datetime`
constructor then rejects; both behaviors end in a parse failure, so the
model folds them together. -/
def readMinSec : List Char → Option (Nat × List Char) :=
  readNum2or1 (fun v => v ≤ 59) (fun _ => true)

/-- Fraction field `%f`: one to six digits, greedy; the value is scaled to
microseconds as CPython does. -/
def readFrac : List Char → Option (Nat × List Char) :=
  fun cs =>
    let ds := (cs.takeWhile Char.isDigit).take 6
    if ds.length = 0 then none
    else some (digitsVal ds * 10 ^ (6 - ds.length), cs.drop ds.length)

/-- Shared `%Y-%m-%d` front of every strptime format the source uses,
validated as the `datetime` constructor does (year at least 1, day within
the month). -/
def strptimeDate (cs : List Char) : Option (Nat × Nat × Nat × List Char) := do
  let (y, r) ← read4 cs
  let r ← expectChar '-' r
  let (mo, r) ← readMonth r
  let r ← expectChar '-' r
  let (d, r) ← readDay r
  if 1 ≤ y ∧ d ≤ daysInMonth y mo then pure (y, mo, d, r) else none

/-- Shared `%H:%M` piece. -/
def strptimeHM (cs : List Char) : Option (Nat × Nat × List Char) := do
  let (h, r) ← readHour cs
  let r ← expectChar ':' r
  let (mi, r) ← readMinSec r
  pure (h, mi, r)

/-- Shared `%H:%M:%S` piece. -/
def strptimeHMS (cs : List Char) : Option (Nat × Nat × Nat × List Char) := do
  let (h, mi, r) ← strptimeHM cs
  let r ← expectChar ':' r
  let (s, r) ← readMinSec r
  pure (h, mi, s, r)

/-- `datetime.strptime(s, p)` for p = `%Y-%m-%dT%H:%M:%SZ` (naive result;
the caller attaches UTC).  The whole string must be consumed
(CPython: unconverted data raises ValueError). -/
def pyStrptimeZ (cs : List Char) : Option PyDateTime := do
  let (y, mo, d, r) ← strptimeDate cs
  let r ← expectChar 'T' r
  let (h, mi, s, r) ← strptimeHMS r
  let r ← expectChar 'Z' r
  if r.isEmpty then pure ⟨y, mo, d, h, mi, s, 0, none⟩ else none

/-- `datetime.strptime(s, p)` for p = `%Y-%m-%dT%H:%M:%S.%fZ`. -/
def pyStrptimeMsZ (cs : List Char) : Option PyDateTime := do
  let (y, mo, d, r) ← strptimeDate cs
  let r ← expectChar 'T' r
  let (h, mi, s, r) ← strptimeHMS r
  let r ← expectChar '.' r
  let (us, r) ← readFrac r
  let r ← expectChar 'Z' r
  if r.isEmpty then pure ⟨y, mo, d, h, mi, s, us, none⟩ else none

/-- `datetime.strptime(s, p)` for p = `%Y-%m-%dT%H:%M:%S`. -/
def pyStrptimeTHMS (cs : List Char) : Option PyDateTime := do
  let (y, mo, d, r) ← strptimeDate cs
  let r ← expectChar 'T' r
  let (h, mi, s, r) ← strptimeHMS r
  if r.isEmpty then pure ⟨y, mo, d, h, mi, s, 0, none⟩ else none

/-- `datetime.strptime(s, p)` for p = `%Y-%m-%d %H:%M:%S`. -/
def pyStrptimeSpaceHMS (cs : List Char) : Option PyDateTime := do
  let (y, mo, d, r) ← strptimeDate cs
  let r ← expectChar ' ' r
  let (h, mi, s, r) ← strptimeHMS r
  if r.isEmpty then pure ⟨y, mo, d, h, mi, s, 0, none⟩ else none

/-- `datetime.strptime(s, p)` for p = `%Y-%m-%dT%H:%M`. -/
def pyStrptimeTHM (cs : List Char) : Option PyDateTime := do
  let (y, mo, d, r) ← strptimeDate cs
  let r ← expectChar 'T' r
  let (h, mi, r) ← strptimeHM r
  if r.isEmpty then pure ⟨y, mo, d, h, mi, 0, 0, none⟩ else none

/-- Whether `pat` occurs as a contiguous substring (Python `pat in s`). -/
def hasSub (pat : List Char) : List Char → Bool
  | [] => pat.isEmpty
  | c :: rest => pat.isPrefixOf (c :: rest) || hasSub pat rest

/-- Python `str.strip()`: whitespace removed from both ends (the model
covers the ASCII whitespace any input of this system can carry). -/
def pyStrip (cs : List Char) : List Char :=
  ((cs.dropWhile Char.isWhitespace).reverse.dropWhile Char.isWhitespace).reverse

/-- Whether the list ends in the character `ch`. -/
def endsIn (ch : Char) (cs : List Char) : Bool :=
  cs.getLast? = some ch

/-- Python `s[:-1] + "+00:00"`: drop the final character, append an
explicit UTC offset. -/
def zSuffixToOffset (cs : List Char) : List Char :=
  cs.dropLast ++ ('+' :: '0' :: '0' :: ':' :: '0' :: '0' :: [])

/-- Python `s.replace("Z", "+00:00")`: every occurrence replaced. -/
def replaceAllZ : List Char → List Char
  | [] => []
  | c :: rest =>
    if c = 'Z' then '+' :: '0' :: '0' :: ':' :: '0' :: '0' :: replaceAllZ rest
    else c :: replaceAllZ rest

/-- Candidate timestamp parsing, `find_intersection` lines 76-115 of
`slot_manager.py`, up to but not including the UTC localization: strip the
string; if it ends in `Z`, rewrite the suffix to `+00:00`; try
`fromisoformat`; on failure fall back to `strptime` — note that the
fallback inspects the already rewritten string, so its two `Z` branches
only fire when a `Z` survives the suffix rewrite, and a `strptime` failure
inside those two branches is uncaught there (the outer handler then drops
the slot, which `Option.map` models); the final branch tries three formats
in order, each failure caught individually. -/
def parse_candidate_datetime (raw : String) : Option PyDateTime :=
  let clean0 := pyStrip raw.toList
  let clean := if endsIn 'Z' clean0 then zSuffixToOffset clean0 else clean0
  match pyFromIso clean with
  | some dt => some dt
  | none =>
    if endsIn 'Z' clean then
      (pyStrptimeZ clean).map (fun dt => { dt with offsetMicroseconds? := some 0 })
    else if hasSub ('.' :: '0' :: '0' :: '0' :: 'Z' :: []) clean then
      (pyStrptimeMsZ clean).map (fun dt => { dt with offsetMicroseconds? := some 0 })
    else
      match pyStrptimeTHMS clean with
      | some dt => some dt
      | none =>
        match pyStrptimeSpaceHMS clean with
        | some dt => some dt
        | none => pyStrptimeTHM clean

/-- Candidate slot normalization: parse, localize naive values to UTC
(lines 118-119), and take the instant the aware datetime denotes — the
value Python uses in every aware-datetime comparison. -/
def normalize_candidate_slot (raw : String) : Option Int :=
  (parse_candidate_datetime raw).map instantOfDT

/-- Recruiter slot timestamp parsing, `find_intersection` lines 127-135:
`fromisoformat` on the string with every `Z` replaced by `+00:00`
(`str.replace` replaces all occurrences), then naive values localized to
UTC, and the instant taken. -/
def parse_recruiter_instant (s : String) : Option Int :=
  (pyFromIso (replaceAllZ s.toList)).map instantOfDT

/-- One availability interval as `SlotManager` stores it: the Python dict
with keys start, end, available, duration (`slot_manager.py` lines 37-42).
Start and end are kept as the raw strings the store holds; `available` is
the free/booked flag. -/
structure Slot where
  start : String
  «end» : String
  available : Bool
  duration : Int
deriving DecidableEq, Repr

/-- One intersection record as `find_intersection` builds it (lines
141-147).  Python stores `candidate_dt.isoformat()` and
`recruiter_end.isoformat()`; the model keeps the instants those rendered
datetimes denote. -/
structure Intersection where
  candidate_slot : String
  recruiter_slot : Slot
  intersection_start : Int
  intersection_end : Int
  duration : Int
deriving DecidableEq, Repr

/-- Python `<=` on `str` values: lexicographic by code point, a proper
prefix ordered before its extensions. -/
def pyStrLe : List Char → List Char → Bool
  | [], _ => true
  | _ :: _, [] => false
  | a :: as2, b :: bs => if a = b then pyStrLe as2 bs else decide (a < b)

/-- The `SlotManager.get_available_slots` loop (lines 55-60): keep the
slots whose raw start string lies between the two raw range strings in
Python string order (a chained `start_date <= slot["start"] <= end_date`
comparison of `str` values, i.e. `pyStrLe` twice) and whose `available`
flag is set, in store order.  The model takes the two range strings as
arguments; the Python defaults for omitted arguments involve
`datetime.now()` and are outside the model. -/
def get_available_slots : List Slot → String → String → List Slot
  | [], _, _ => []
  | s :: rest, sd, ed =>
    if pyStrLe sd.toList s.start.toList && pyStrLe s.start.toList ed.toList && s.available then
      s :: get_available_slots rest sd ed
    else
      get_available_slots rest sd ed

/-- The inner loop of `find_intersection` (lines 122-153): scan the store
in order; skip booked slots; parse the slot bounds, skipping the slot when
either bound fails to parse; stop at the first slot whose parsed bounds
satisfy `recruiter_start <= candidate_dt < recruiter_end`, returning the
slot and its parsed end. -/
def scan_recruiter_slots (candidate_dt : Int) : List Slot → Option (Slot × Int)
  | [] => none
  | s :: rest =>
    if s.available = false then scan_recruiter_slots candidate_dt rest
    else
      match parse_recruiter_instant s.start, parse_recruiter_instant s.«end» with
      | some rs, some ren =>
        if rs ≤ candidate_dt ∧ candidate_dt < ren then some (s, ren)
        else scan_recruiter_slots candidate_dt rest
      | _, _ => scan_recruiter_slots candidate_dt rest

/-- The outer loop of `find_intersection` (lines 75-160): each candidate
string is normalized independently; a candidate that fails to parse is
dropped and the loop continues; a parsed candidate contributes the record
of the first matching free slot, if any, and the scan for that candidate
then stops (the `break` on line 149). -/
def find_intersection (availability : List Slot) : List String → List Intersection
  | [] => []
  | c :: rest =>
    match normalize_candidate_slot c with
    | none => find_intersection availability rest
    | some cdt =>
      match scan_recruiter_slots cdt availability with
      | none => find_intersection availability rest
      | some (s, ren) =>
        { candidate_slot := c, recruiter_slot := s, intersection_start := cdt,
          intersection_end := ren, duration := s.duration }
          :: find_intersection availability rest

/-- What one candidate string contributes to `find_intersection`: nothing
when normalization fails or no free slot contains the instant, and the
record of the first matching slot otherwise.  Used to state the
per-candidate structure of the matcher. -/
def match_candidate (availability : List Slot) (c : String) : Option Intersection :=
  (normalize_candidate_slot c).bind fun cdt =>
    (scan_recruiter_slots cdt availability).map fun p =>
      { candidate_slot := c, recruiter_slot := p.1, intersection_start := cdt,
        intersection_end := p.2, duration := p.1.duration }

/-- Whether a slot is the one `scan_recruiter_slots` accepts: free, both
bounds parse, and the candidate instant lies in the half-open interval. -/
def slot_hit (candidate_dt : Int) (s : Slot) : Bool :=
  s.available &&
    match parse_recruiter_instant s.start, parse_recruiter_instant s.«end» with
    | some rs, some ren => decide (rs ≤ candidate_dt) && decide (candidate_dt < ren)
    | _, _ => false

/-- `SlotManager.get_best_match` (lines 162-168): `None` on an empty list,
the first element otherwise. -/
def get_best_match : List Intersection → Option Intersection
  | [] => none
  | x :: _ => some x

/-- `SlotManager.mark_slot_booked` (lines 170-176): walk the store, set
`available := False` on the first slot whose start and end strings equal
the arguments exactly, and stop (`break`); the flag is written whether or
not the slot was still free, every other slot and every other field is
untouched, and a pair that matches no slot changes nothing. -/
def mark_slot_booked : List Slot → String → String → List Slot
  | [], _, _ => []
  | s :: rest, st, en =>
    if s.start = st ∧ s.«end» = en then { s with available := false } :: rest
    else s :: mark_slot_booked rest st en

/-- The value `mark_slot_booked` returns to its caller: the Python function
body (lines 170-176) has no return statement on any path, so every call
returns `None` — modelled as the constantly-`none` optional boolean; in
particular no call can return a true/false booking outcome. -/
def mark_slot_booked_return (_availability : List Slot) (_slot_start _slot_end : String) :
    Option Bool :=
  none

/-- Index of the first slot whose start and end strings equal the given
pair (equal to the list length when there is none); the slot
`mark_slot_booked` mutates. -/
def first_match_index : List Slot → String → String → Nat
  | [], _, _ => 0
  | s :: rest, st, en =>
    if s.start = st ∧ s.«end» = en then 0 else first_match_index rest st en + 1

/-- One slot as the backend returns it across the refresh boundary
(`scheduler_agent.py` lines 119-123 read `startTime`/`endTime` with
`dict.get`, so either may be absent; a Python falsy value — `None` or the
empty string — is skipped). -/
structure BackendSlot where
  startTime? : Option String
  endTime? : Option String
deriving DecidableEq, Repr

/-- The mapping loop of `_refresh_recruiter_slots_from_backend` (lines
118-129): each fetched slot with both bounds present and non-empty becomes
a fresh available `Slot` carrying the requested duration; the rest are
dropped. -/
def map_backend_slots (duration_minutes : Int) : List BackendSlot → List Slot
  | [] => []
  | s :: rest =>
    match s.startTime?, s.endTime? with
    | some st, some en =>
      if st = "" ∨ en = "" then map_backend_slots duration_minutes rest
      else
        { start := st, «end» := en, available := true, duration := duration_minutes }
          :: map_backend_slots duration_minutes rest
    | _, _ => map_backend_slots duration_minutes rest

/-- The replace step of `_refresh_recruiter_slots_from_backend` (lines
130-135): when the mapped list is non-empty it replaces the whole
availability set; when it is empty the existing set is kept unchanged
(the source logs that it is keeping existing availability). -/
def refresh_recruiter_slots_from_backend (current : List Slot)
    (fetched : List BackendSlot) (duration_minutes : Int) : List Slot :=
  let mapped := map_backend_slots duration_minutes fetched
  if mapped.isEmpty then current else mapped

/-- The session state of `SchedulerAgent` (`scheduler_agent.py` lines
43-50) in the fields the scheduling logic reads or writes.  The
`conversation_history` list only accumulates log entries and is not
modelled. -/
structure SessionState where
  recruiter_email : Option String
  candidate_email : Option String
  current_stage : String
  proposed_slots : List String
  confirmed_slot : Option Intersection
deriving DecidableEq, Repr

/-- `SchedulerAgent._find_slot_intersection_tool` (lines 214-238), the
Evaluate step: refresh availability from the backend (`fetched` is what
the backend returned), read the proposed slots from the session — an empty
list returns early with no state change — run the matcher, and either
record the best match with stage `slot_confirmed` or set stage
`no_intersection`.  No branch calls `mark_slot_booked` or clears
`confirmed_slot`.  Returns the session and the availability store after
the call. -/
def find_slot_intersection_tool (sess : SessionState) (availability : List Slot)
    (fetched : List BackendSlot) : SessionState × List Slot :=
  let availability2 := refresh_recruiter_slots_from_backend availability fetched 60
  if sess.proposed_slots.isEmpty then (sess, availability2)
  else
    let intersections := find_intersection availability2 sess.proposed_slots
    match get_best_match intersections with
    | some best =>
      ({ sess with confirmed_slot := some best, current_stage := "slot_confirmed" },
        availability2)
    | none =>
      ({ sess with current_stage := "no_intersection" }, availability2)

/-- `SchedulerAgent._parse_candidate_response_tool` (lines 193-212) on its
success path: the candidate response text goes to the external LLM parser,
whose output `parsed_slots` is a boundary input here; the session stores
it as the proposed slots and moves to stage `candidate_response_parsed`,
whatever the current stage is — the tool inspects no stage. -/
def parse_candidate_response_tool (sess : SessionState) (parsed_slots : List String) :
    SessionState :=
  { sess with proposed_slots := parsed_slots, current_stage := "candidate_response_parsed" }

/-- The `/ingestEmail` handler of `server.py` (lines 44-64): parse the
candidate response, run the intersection tool, then report `confirmed`
when the session holds a confirmed slot and `no_intersection` otherwise
(the confirmation/follow-up emails and the calendar call only touch the
outside world).  The handler consults no stage before acting.  Returns the
session, the availability store and the reported status. -/
def ingest_email (sess : SessionState) (availability : List Slot)
    (parsed_slots : List String) (fetched : List BackendSlot) :
    SessionState × List Slot × String :=
  let sess1 := parse_candidate_response_tool sess parsed_slots
  let (sess2, availability2) := find_slot_intersection_tool sess1 availability fetched
  (sess2, availability2,
    if sess2.confirmed_slot.isSome then "confirmed" else "no_intersection")

/-! Concrete values used by the claim-level statements: one free Monday
morning slot in the generated-availability format, sessions around it, and
the intersection record the matcher builds for a 09:30 proposal. -/

/-- A free 09:00-10:00 UTC slot on Monday 2025-08-25, in the exact string
format `_generate_default_availability` emits. -/
def slotMon : Slot :=
  { start := "2025-08-25T09:00:00Z", «end» := "2025-08-25T10:00:00Z",
    available := true, duration := 60 }

/-- A free 14:00-15:00 UTC slot on the same day. -/
def slot14 : Slot :=
  { start := "2025-08-25T14:00:00Z", «end» := "2025-08-25T15:00:00Z",
    available := true, duration := 60 }

/-- A session that has just parsed a candidate response proposing
09:30 on the Monday. -/
def sessionResponseParsed : SessionState :=
  { recruiter_email := some "recruiter@example.com",
    candidate_email := some "candidate@example.com",
    current_stage := "candidate_response_parsed",
    proposed_slots := ["2025-08-25T09:30:00Z"], confirmed_slot := none }

/-- A second session for the same recruiter proposing the same 09:30
instant (the conflicting pairing of the spec's race scenario). -/
def sessionResponseParsed2 : SessionState :=
  { sessionResponseParsed with candidate_email := some "candidate2@example.com" }

/-- The intersection record `find_intersection` builds for the 09:30
proposal against `slotMon` (instants in microseconds since the epoch). -/
def interMon : Intersection :=
  { candidate_slot := "2025-08-25T09:30:00Z", recruiter_slot := slotMon,
    intersection_start := 1756114200000000, intersection_end := 1756116000000000,
    duration := 60 }

/-- A session already confirmed on `interMon`. -/
def sessionConfirmed : SessionState :=
  { recruiter_email := some "recruiter@example.com",
    candidate_email := some "candidate@example.com",
    current_stage := "slot_confirmed",
    proposed_slots := ["2025-08-25T09:30:00Z"], confirmed_slot := some interMon }

/-- A second slot with the same (start, end) identity as `slotMon` but a
different duration, to exercise booking over duplicate keys. -/
def slotMonCopy : Slot :=
  { slotMon with duration := 45 }

/-- Two well-formed backend slots, as a refresh returns them. -/
def fetchedAB : List BackendSlot :=
  [ { startTime? := some "2025-09-01T09:00:00Z", endTime? := some "2025-09-01T10:00:00Z" },
    { startTime? := some "2025-09-01T10:00:00Z", endTime? := some "2025-09-01T11:00:00Z" } ]

/-! Helper lemmas about the embedded operations, shared by the claim
theorems below. -/

theorem get_best_match_eq_head : ∀ l : List Intersection, get_best_match l = l.head?
  | [] => rfl
  | _ :: _ => rfl

theorem head_filterMap {α β : Type} (f : α → Option β) :
    ∀ l : List α, (l.filterMap f).head? = l.findSome? f
  | [] => rfl
  | a :: l => by
    cases h : f a <;>
      simp [List.filterMap_cons, List.findSome?_cons, h, head_filterMap f l]

theorem find_intersection_eq_filterMap (availability : List Slot) :
    ∀ props : List String,
      find_intersection availability props = props.filterMap (match_candidate availability)
  | [] => rfl
  | c :: rest => by
    have ih := find_intersection_eq_filterMap availability rest
    simp only [find_intersection, List.filterMap_cons, match_candidate]
    cases h1 : normalize_candidate_slot c with
    | none => simpa [h1, Option.bind] using ih
    | some cdt =>
      cases h2 : scan_recruiter_slots cdt availability with
      | none => simpa [h1, h2, Option.bind] using ih
      | some p => simpa [h1, h2, Option.bind] using ih

theorem scan_eq_find (cdt : Int) :
    ∀ availability : List Slot,
      (scan_recruiter_slots cdt availability).map Prod.fst
        = availability.find? (slot_hit cdt)
  | [] => rfl
  | s :: rest => by
    have ih := scan_eq_find cdt rest
    simp only [scan_recruiter_slots, slot_hit]
    cases hav : s.available with
    | false => simpa [List.find?_cons, slot_hit, hav] using ih
    | true =>
      cases hs : parse_recruiter_instant s.start with
      | none => simpa [List.find?_cons, slot_hit, hav, hs] using ih
      | some rs =>
        cases he : parse_recruiter_instant s.«end» with
        | none => simpa [List.find?_cons, slot_hit, hav, hs, he] using ih
        | some ren =>
          by_cases hin : rs ≤ cdt ∧ cdt < ren
          · simp [List.find?_cons, slot_hit, hav, hs, he, hin]
          · have : ¬ (decide (rs ≤ cdt) && decide (cdt < ren)) = true := by
              simpa [Bool.and_eq_true, decide_eq_true_eq] using hin
            simpa [List.find?_cons, slot_hit, hav, hs, he, hin, this] using ih

theorem scan_some_spec (cdt : Int) :
    ∀ (availability : List Slot) (s : Slot) (ren : Int),
      scan_recruiter_slots cdt availability = some (s, ren) →
        s.available = true ∧
          ∃ rs, parse_recruiter_instant s.start = some rs ∧
            parse_recruiter_instant s.«end» = some ren ∧ rs ≤ cdt ∧ cdt < ren
  | [], _, _ => by intro h; exact absurd h (by simp [scan_recruiter_slots])
  | x :: rest, s, ren => by
    intro h
    have ih := scan_some_spec cdt rest s ren
    simp only [scan_recruiter_slots] at h
    cases hav : x.available with
    | false => exact ih (by simpa [hav] using h)
    | true =>
      cases hs : parse_recruiter_instant x.start with
      | none => exact ih (by simpa [hav, hs] using h)
      | some rs =>
        cases he : parse_recruiter_instant x.«end» with
        | none => exact ih (by simpa [hav, hs, he] using h)
        | some ren2 =>
          by_cases hin : rs ≤ cdt ∧ cdt < ren2
          · have hx : x = s ∧ ren2 = ren := by
              have h2 := h
              simp only [hav, hs, he, hin, if_pos, Option.some_inj, Prod.mk.injEq] at h2
              simpa using h2
            obtain ⟨hxs, hrens⟩ := hx
            subst hxs; subst hrens
            exact ⟨hav, rs, hs, he, hin.1, hin.2⟩
          · exact ih (by simpa [hav, hs, he, hin] using h)

theorem mark_slot_booked_length :
    ∀ (l : List Slot) (st en : String), (mark_slot_booked l st en).length = l.length
  | [], _, _ => rfl
  | s :: rest, st, en => by
    by_cases h : s.start = st ∧ s.«end» = en <;>
      simp [mark_slot_booked, h, mark_slot_booked_length rest st en]

theorem mark_slot_booked_getElem_ne :
    ∀ (l : List Slot) (st en : String) (j : Nat), j ≠ first_match_index l st en →
      (mark_slot_booked l st en)[j]? = l[j]?
  | [], _, _, _ => by intro _; rfl
  | s :: rest, st, en, j => by
    intro hj
    by_cases h : s.start = st ∧ s.«end» = en
    · simp only [mark_slot_booked, first_match_index, if_pos h] at hj ⊢
      cases j with
      | zero => exact absurd rfl hj
      | succ j2 => simp
    · simp only [mark_slot_booked, first_match_index, if_neg h] at hj ⊢
      cases j with
      | zero => simp
      | succ j2 =>
        have : j2 ≠ first_match_index rest st en := fun hc => hj (by omega)
        simpa using mark_slot_booked_getElem_ne rest st en j2 this

theorem mark_slot_booked_getElem_eq :
    ∀ (l : List Slot) (st en : String) (x : Slot),
      l[first_match_index l st en]? = some x →
        (mark_slot_booked l st en)[first_match_index l st en]?
          = some { x with available := false }
  | [], _, _, _ => by intro h; simp [first_match_index] at h
  | s :: rest, st, en, x => by
    intro hx
    by_cases h : s.start = st ∧ s.«end» = en
    · simp only [first_match_index, if_pos h] at hx ⊢
      simp only [List.getElem?_cons_zero, Option.some_inj] at hx
      subst hx
      simp [mark_slot_booked, if_pos h]
    · simp only [first_match_index, if_neg h] at hx ⊢
      simp only [List.getElem?_cons_succ] at hx
      simpa [mark_slot_booked, if_neg h]
        using mark_slot_booked_getElem_eq rest st en x hx

theorem mark_slot_booked_idem :
    ∀ (l : List Slot) (st en : String),
      mark_slot_booked (mark_slot_booked l st en) st en = mark_slot_booked l st en
  | [], _, _ => rfl
  | s :: rest, st, en => by
    by_cases h : s.start = st ∧ s.«end» = en
    · simp [mark_slot_booked, if_pos h]
    · simp [mark_slot_booked, if_neg h, mark_slot_booked_idem rest st en]

theorem get_available_slots_eq_filter :
    ∀ (l : List Slot) (sd ed : String),
      get_available_slots l sd ed
        = l.filter (fun s =>
            pyStrLe sd.toList s.start.toList && pyStrLe s.start.toList ed.toList
              && s.available)
  | [], _, _ => rfl
  | s :: rest, sd, ed => by
    by_cases h :
        (pyStrLe sd.toList s.start.toList && pyStrLe s.start.toList ed.toList
          && s.available) = true <;>
      simp [get_available_slots, List.filter_cons, h,
        get_available_slots_eq_filter rest sd ed]

/-- C1: the claim says an Evaluate whose proposed slots yield a present
best match records it as the confirmed match, moves the session to
Confirmed, and calls book() on the matched interval so that its free flag
becomes false afterwards.  The code records the match and sets stage
slot_confirmed, but no path of `_find_slot_intersection_tool` calls
`mark_slot_booked`: at a concrete matching input the availability store
comes back unchanged and the matched interval is still free, although
booking it would have produced a different store. -/
theorem evaluate_confirms_without_booking :
    find_slot_intersection_tool sessionResponseParsed [slotMon] []
      = ({ sessionResponseParsed with
            current_stage := "slot_confirmed", confirmed_slot := some interMon },
          [slotMon])
  ∧ slotMon.available = true
  ∧ mark_slot_booked [slotMon] "2025-08-25T09:00:00Z" "2025-08-25T10:00:00Z"
      = [{ slotMon with available := false }]
  ∧ [slotMon] ≠ [{ slotMon with available := false }] := by
  decide

/-- C2: the claim says an Evaluate in which book() returns false for the
previously-selected match demotes the session to Unmatched.  In the code
the Evaluate step never calls `mark_slot_booked` at all and
`mark_slot_booked` returns None on every input, so no booking failure can
be observed and no demotion path exists: running the spec's conflict
scenario — a second session evaluating the same interval after the first
confirmed it — confirms the second session too, on a store that was never
mutated. -/
theorem evaluate_conflict_never_demotes :
    (find_slot_intersection_tool sessionResponseParsed2
        (find_slot_intersection_tool sessionResponseParsed [slotMon] []).2 []).1.current_stage
      = "slot_confirmed"
  ∧ (find_slot_intersection_tool sessionResponseParsed2
        (find_slot_intersection_tool sessionResponseParsed [slotMon] []).2 []).1.confirmed_slot
      = some interMon
  ∧ (find_slot_intersection_tool sessionResponseParsed2
        (find_slot_intersection_tool sessionResponseParsed [slotMon] []).2 []).2
      = [slotMon]
  ∧ mark_slot_booked_return [slotMon] "2025-08-25T09:00:00Z" "2025-08-25T10:00:00Z"
      ≠ some false := by
  decide

/-- C3, counterexample: the claim says the first book() on a free interval
returns true.  The Python function has no return statement, so the call
returns None — not true — even on a store holding exactly that free
interval. -/
theorem mark_slot_booked_no_true_return :
    mark_slot_booked_return [slotMon] "2025-08-25T09:00:00Z" "2025-08-25T10:00:00Z" = none
  ∧ ¬ (mark_slot_booked_return [slotMon] "2025-08-25T09:00:00Z" "2025-08-25T10:00:00Z"
        = some true)
  ∧ slotMon.available = true := by
  decide

/-- C3, amended: book(s, e) marks the first interval whose (start, end)
exactly equals the arguments as not free, is a no-op on the store when
called again or when no interval matches, and after the call the first
matching interval's free flag is false — but the function returns None on
every call, never a true/false booking outcome. -/
theorem mark_slot_booked_amended :
    ∀ (l : List Slot) (st en : String),
      mark_slot_booked_return l st en = none
    ∧ mark_slot_booked (mark_slot_booked l st en) st en = mark_slot_booked l st en
    ∧ (∀ x : Slot, l[first_match_index l st en]? = some x →
        (mark_slot_booked l st en)[first_match_index l st en]?
          = some { x with available := false }) :=
  fun l st en =>
    ⟨rfl, mark_slot_booked_idem l st en, mark_slot_booked_getElem_eq l st en⟩

theorem mark_slot_booked_amended_witness :
    mark_slot_booked
        (mark_slot_booked [slotMon] "2025-08-25T09:00:00Z" "2025-08-25T10:00:00Z")
        "2025-08-25T09:00:00Z" "2025-08-25T10:00:00Z"
      = mark_slot_booked [slotMon] "2025-08-25T09:00:00Z" "2025-08-25T10:00:00Z"
  ∧ (mark_slot_booked [slotMon] "2025-08-25T09:00:00Z" "2025-08-25T10:00:00Z")[
      first_match_index [slotMon] "2025-08-25T09:00:00Z" "2025-08-25T10:00:00Z"]?
      = some { slotMon with available := false } :=
  ⟨(mark_slot_booked_amended [slotMon] "2025-08-25T09:00:00Z" "2025-08-25T10:00:00Z").2.1,
    (mark_slot_booked_amended [slotMon] "2025-08-25T09:00:00Z" "2025-08-25T10:00:00Z").2.2
      slotMon (by decide)⟩

/-- C4: a refresh that maps to zero intervals leaves the availability set
unchanged, and a refresh that maps to one or more intervals replaces the
whole set with exactly those intervals — the guarded assignment of
`_refresh_recruiter_slots_from_backend`. -/
theorem refresh_keeps_on_empty_replaces_on_nonempty :
    ∀ (current : List Slot) (fetched : List BackendSlot) (dm : Int),
      (map_backend_slots dm fetched = [] →
        refresh_recruiter_slots_from_backend current fetched dm = current)
    ∧ (map_backend_slots dm fetched ≠ [] →
        refresh_recruiter_slots_from_backend current fetched dm
          = map_backend_slots dm fetched) := by
  intro current fetched dm
  constructor
  · intro h
    simp [refresh_recruiter_slots_from_backend, h]
  · intro h
    simp [refresh_recruiter_slots_from_backend, List.isEmpty_iff, h]

theorem refresh_keeps_witness :
    refresh_recruiter_slots_from_backend [slotMon, slot14] [] 60 = [slotMon, slot14]
  ∧ refresh_recruiter_slots_from_backend [] fetchedAB 60 = map_backend_slots 60 fetchedAB
  ∧ refresh_recruiter_slots_from_backend
        (refresh_recruiter_slots_from_backend [] fetchedAB 60) [] 60
      = map_backend_slots 60 fetchedAB :=
  ⟨(refresh_keeps_on_empty_replaces_on_nonempty [slotMon, slot14] [] 60).1 rfl,
    (refresh_keeps_on_empty_replaces_on_nonempty [] fetchedAB 60).2 (by decide),
    ((refresh_keeps_on_empty_replaces_on_nonempty
        (refresh_recruiter_slots_from_backend [] fetchedAB 60) [] 60).1 rfl).trans
      ((refresh_keeps_on_empty_replaces_on_nonempty [] fetchedAB 60).2 (by decide))⟩

/-- C5: the matcher processes each proposed string independently
(`find_intersection` is exactly a `filterMap` of the per-candidate step,
so a batch never aborts and each proposed string yields at most one
match), a string whose normalization fails contributes nothing, and for a
normalized instant the scan returns precisely the first free interval in
store order whose parsed bounds satisfy start ≤ instant < end, stopping
there. -/
theorem find_intersection_first_fit_spec :
    ∀ (availability : List Slot) (props : List String) (cdt : Int),
      find_intersection availability props
          = props.filterMap (match_candidate availability)
    ∧ (find_intersection availability props).length ≤ props.length
    ∧ (∀ c : String, normalize_candidate_slot c = none →
        match_candidate availability c = none)
    ∧ (scan_recruiter_slots cdt availability).map Prod.fst
          = availability.find? (slot_hit cdt)
    ∧ (∀ (s : Slot) (ren : Int), scan_recruiter_slots cdt availability = some (s, ren) →
        s.available = true ∧
          ∃ rs, parse_recruiter_instant s.start = some rs ∧
            parse_recruiter_instant s.«end» = some ren ∧ rs ≤ cdt ∧ cdt < ren) := by
  intro availability props cdt
  refine ⟨find_intersection_eq_filterMap availability props, ?_, ?_,
    scan_eq_find cdt availability, scan_some_spec cdt availability⟩
  · rw [find_intersection_eq_filterMap availability props]
    exact List.length_filterMap_le _ _
  · intro c h
    simp [match_candidate, h]

theorem find_intersection_first_fit_witness :
    find_intersection [slotMon] ["garbage", "2025-08-25T09:30:00Z"]
        = ["garbage", "2025-08-25T09:30:00Z"].filterMap (match_candidate [slotMon])
  ∧ match_candidate [slotMon] "garbage" = none
  ∧ (scan_recruiter_slots 1756114200000000 [slotMon]).map Prod.fst
        = [slotMon].find? (slot_hit 1756114200000000)
  ∧ (slotMon.available = true ∧
      ∃ rs, parse_recruiter_instant slotMon.start = some rs ∧
        parse_recruiter_instant slotMon.«end» = some 1756116000000000 ∧
        rs ≤ 1756114200000000 ∧ (1756114200000000 : Int) < 1756116000000000) :=
  ⟨(find_intersection_first_fit_spec [slotMon] ["garbage", "2025-08-25T09:30:00Z"] 0).1,
    (find_intersection_first_fit_spec [slotMon] [] 0).2.2.1 "garbage" (by decide),
    (find_intersection_first_fit_spec [slotMon] [] 1756114200000000).2.2.2.1,
    (find_intersection_first_fit_spec [slotMon] [] 1756114200000000).2.2.2.2
      slotMon 1756116000000000 (by decide)⟩

/-- C6: `get_best_match` applied to the matcher output is the match of the
first proposed slot, in input order, that found a free interval
(`List.findSome?` over the per-candidate step), and it is none exactly
when the match list is empty — in particular on an empty proposed list —
which is an ordinary value, not an error. -/
theorem get_best_match_first_in_input_order :
    ∀ (availability : List Slot) (props : List String),
      get_best_match (find_intersection availability props)
          = props.findSome? (match_candidate availability)
    ∧ (get_best_match (find_intersection availability props) = none
          ↔ find_intersection availability props = [])
    ∧ get_best_match (find_intersection availability []) = none := by
  intro availability props
  refine ⟨?_, ?_, rfl⟩
  · rw [get_best_match_eq_head, find_intersection_eq_filterMap,
      head_filterMap]
  · rw [get_best_match_eq_head]
    cases find_intersection availability props <;> simp

theorem get_best_match_first_witness :
    get_best_match
        (find_intersection [slotMon, slot14]
          ["2025-08-25T14:30:00Z", "2025-08-25T09:30:00Z"])
      = ["2025-08-25T14:30:00Z", "2025-08-25T09:30:00Z"].findSome?
          (match_candidate [slotMon, slot14])
  ∧ get_best_match (find_intersection [slotMon, slot14] []) = none :=
  ⟨(get_best_match_first_in_input_order [slotMon, slot14]
      ["2025-08-25T14:30:00Z", "2025-08-25T09:30:00Z"]).1,
    (get_best_match_first_in_input_order [slotMon, slot14] []).2.2⟩

/-- C7: the three spec inputs — explicit Z suffix, fractional seconds with
Z, and the offset-free form treated as UTC — normalize to the same
instant (14:00 UTC on 2025-08-25), and in general the instant produced
depends only on the wall-clock-plus-offset value the parsed fields
denote, never on which accepted format produced them. -/
theorem normalize_equivalence :
    normalize_candidate_slot "2025-08-25T14:00:00Z"
        = normalize_candidate_slot "2025-08-25T14:00:00.000Z"
  ∧ normalize_candidate_slot "2025-08-25T14:00:00.000Z"
        = normalize_candidate_slot "2025-08-25T14:00:00"
  ∧ normalize_candidate_slot "2025-08-25T14:00:00" = some 1756130400000000
  ∧ (∀ (s1 s2 : String) (d1 d2 : PyDateTime),
      parse_candidate_datetime s1 = some d1 →
      parse_candidate_datetime s2 = some d2 →
      instantOfDT d1 = instantOfDT d2 →
      normalize_candidate_slot s1 = normalize_candidate_slot s2) := by
  refine ⟨by decide, by decide, by decide, ?_⟩
  intro s1 s2 d1 d2 h1 h2 h3
  simp [normalize_candidate_slot, h1, h2, h3]

theorem normalize_equivalence_witness :
    normalize_candidate_slot "2025-08-25T14:00:00.000Z"
      = normalize_candidate_slot "2025-08-25 14:00:00" :=
  normalize_equivalence.2.2.2 "2025-08-25T14:00:00.000Z" "2025-08-25 14:00:00"
    ⟨2025, 8, 25, 14, 0, 0, 0, some 0⟩ ⟨2025, 8, 25, 14, 0, 0, 0, none⟩
    (by decide) (by decide) (by decide)

/-- C8: the claim says a ResponseArrived in stage Confirmed is rejected as
an invalid transition with the session unchanged.  The `/ingestEmail`
handler consults no stage: on a confirmed session it overwrites the
proposed slots, re-runs evaluation (here demoting the stage to
no_intersection while the stale confirmed slot survives) and reports the
ordinary status string `confirmed` — the state changes and no error is
surfaced. -/
theorem ingest_email_in_confirmed_not_rejected :
    ingest_email sessionConfirmed [slotMon] ["2030-01-01T00:00:00Z"] []
      = ({ sessionConfirmed with
            current_stage := "no_intersection",
            proposed_slots := ["2030-01-01T00:00:00Z"] },
          [slotMon], "confirmed")
  ∧ ({ sessionConfirmed with
        current_stage := "no_intersection",
        proposed_slots := ["2030-01-01T00:00:00Z"] } : SessionState)
      ≠ sessionConfirmed := by
  decide

/-- C9, counterexample: the claim reads the range as instants, but the
code compares raw strings.  The slot starting 14:00 UTC (written with a Z
suffix) is free and its start instant equals the instant of the range end
"2025-08-25T14:00:00+00:00", so the claimed closed instant range contains
it, yet the query returns nothing, because the Z-suffixed start string is
lexicographically greater than the +00:00-suffixed range end. -/
theorem query_instant_range_cex :
    get_available_slots [slot14] "2025-08-25T13:00:00+00:00" "2025-08-25T14:00:00+00:00"
      = []
  ∧ slot14.available = true
  ∧ parse_recruiter_instant slot14.start = some 1756130400000000
  ∧ parse_recruiter_instant "2025-08-25T13:00:00+00:00" = some 1756126800000000
  ∧ parse_recruiter_instant "2025-08-25T14:00:00+00:00" = some 1756130400000000 := by
  decide

/-- C9, amended: `get_available_slots` returns, in store order (its result
is a sublist of the store, never re-sorted), exactly the free intervals
whose raw start string lies between the two raw range strings inclusive
under Python string comparison; this agrees with the instant reading of
the range only when range and store share one fixed-width timestamp
format. -/
theorem get_available_slots_amended :
    ∀ (l : List Slot) (sd ed : String),
      get_available_slots l sd ed
          = l.filter (fun s =>
              pyStrLe sd.toList s.start.toList && pyStrLe s.start.toList ed.toList
                && s.available)
    ∧ (get_available_slots l sd ed).Sublist l := by
  intro l sd ed
  refine ⟨get_available_slots_eq_filter l sd ed, ?_⟩
  rw [get_available_slots_eq_filter l sd ed]
  exact List.filter_sublist l

theorem get_available_slots_amended_witness :
    get_available_slots [slot14, slotMon] "2025-08-25T00:00:00Z" "2025-08-25T12:00:00Z"
        = [slot14, slotMon].filter (fun s =>
            pyStrLe "2025-08-25T00:00:00Z".toList s.start.toList
              && pyStrLe s.start.toList "2025-08-25T12:00:00Z".toList && s.available)
  ∧ (get_available_slots [slot14, slotMon] "2025-08-25T00:00:00Z"
        "2025-08-25T12:00:00Z").Sublist [slot14, slotMon] :=
  ⟨(get_available_slots_amended [slot14, slotMon] "2025-08-25T00:00:00Z"
      "2025-08-25T12:00:00Z").1,
    (get_available_slots_amended [slot14, slotMon] "2025-08-25T00:00:00Z"
      "2025-08-25T12:00:00Z").2⟩

/-- C10: one call to `mark_slot_booked` changes at most one element of the
store — the first one, in store order, whose start and end strings equal
the arguments exactly — and on that element only the free flag (the
record update keeps start, end and duration); every other element,
including later duplicates of the same (start, end) pair, is returned
unchanged, and the store keeps its length. -/
theorem mark_slot_booked_frame :
    ∀ (l : List Slot) (st en : String),
      (mark_slot_booked l st en).length = l.length
    ∧ (∀ j : Nat, j ≠ first_match_index l st en →
        (mark_slot_booked l st en)[j]? = l[j]?)
    ∧ (∀ x : Slot, l[first_match_index l st en]? = some x →
        (mark_slot_booked l st en)[first_match_index l st en]?
          = some { x with available := false }) :=
  fun l st en =>
    ⟨mark_slot_booked_length l st en, mark_slot_booked_getElem_ne l st en,
      mark_slot_booked_getElem_eq l st en⟩

theorem mark_slot_booked_frame_witness :
    (mark_slot_booked [slotMon, slotMonCopy]
        "2025-08-25T09:00:00Z" "2025-08-25T10:00:00Z").length = 2
  ∧ (mark_slot_booked [slotMon, slotMonCopy]
        "2025-08-25T09:00:00Z" "2025-08-25T10:00:00Z")[1]? = some slotMonCopy
  ∧ (mark_slot_booked [slotMon, slotMonCopy]
        "2025-08-25T09:00:00Z" "2025-08-25T10:00:00Z")[
          first_match_index [slotMon, slotMonCopy]
            "2025-08-25T09:00:00Z" "2025-08-25T10:00:00Z"]?
      = some { slotMon with available := false } :=
  ⟨(mark_slot_booked_frame [slotMon, slotMonCopy]
      "2025-08-25T09:00:00Z" "2025-08-25T10:00:00Z").1,
    ((mark_slot_booked_frame [slotMon, slotMonCopy]
      "2025-08-25T09:00:00Z" "2025-08-25T10:00:00Z").2.1 1 (by decide)).trans rfl,
    (mark_slot_booked_frame [slotMon, slotMonCopy]
      "2025-08-25T09:00:00Z" "2025-08-25T10:00:00Z").2.2 slotMon (by decide)⟩
